import Mathlib

/-!
# Verification of the USB file-transfer tracker core

A shallow embedding of the core logic of the `usb-file-transfer-tracker`
repository, together with theorems settling the specification's claims.

Embedded components:

* the policy evaluator of `src/core/file_watcher.py`
  (`_should_monitor_file`, `_is_suspicious_file`, `_check_time_based_alerts`),
* the per-device event reconciler of the same file
  (`_record_operation`, `_finalize_operations`, the `on_*` handlers and
  `_log_file_operation`),
* the device-registry reconciliation cycle of
  `src/core/usb_monitor.py` (`_monitor_fallback`),
* the tamper-evident log sink of `src/utils/logger.py`
  (`SecureFileHandler.emit` / `_save_hash` and `verify_log_integrity`).

Modelling conventions: the filesystem is a snapshot function from paths to
optional entries (`none` = path does not exist); a file's recorded size is
`Option Nat`, where `none` means `os.path.getsize` raises (a race between the
existence check and the size read).  Wall-clock time is abstracted to `Nat`
ticks.  Python `int` fields of the configuration are modelled as `Nat` (the
configuration surface only ever holds non-negative values).  Byte-exact float
arithmetic: Python computes `size / (1024*1024) > threshold` in doubles;
division by the power of two `2^20` is exact for any size below `2^53` bytes,
so the comparison is modelled as `threshold * 1048576 < size`.
-/

/-! ## Filesystem snapshot model -/

/-- One directory entry of a filesystem snapshot.  `isFile` is the result of
`os.path.isfile`; `size` is the value `os.path.getsize` returns, or `none`
when the size read raises (e.g. the entry vanished mid-call). -/
structure FSEntry where
  isFile : Bool
  size : Option Nat
deriving DecidableEq

/-- A filesystem snapshot: each path maps to its entry, or to `none` when the
path does not exist. -/
abbrev FileSystem : Type := String → Option FSEntry

/-- Python `os.path.exists`. -/
def fsExists (fs : FileSystem) (p : String) : Bool := (fs p).isSome

/-- Python `os.path.isfile` (a missing path is not a regular file). -/
def fsIsFile (fs : FileSystem) (p : String) : Bool :=
  match fs p with
  | some e => e.isFile
  | none => false

/-- Python `os.path.getsize`: `none` models the call raising `OSError` (missing path
or a read race). -/
def fsGetsize (fs : FileSystem) (p : String) : Option Nat :=
  (fs p).bind (fun e => e.size)

/-! ## Path helpers (`os.path.splitext`, `os.path.relpath`)

The POSIX behaviour is modelled: `/` is the separator and case is
preserved. -/

/-- Characters of the last path component (after the final `/`). -/
def basenameChars (p : String) : List Char :=
  ((p.toList.reverse.takeWhile (fun c => !(c == '/'))).reverse)

/-- Extension of a basename whose leading dots have been stripped: everything
from the last dot on, or `[]` when no dot remains. -/
def extAfter (rest : List Char) : List Char :=
  match rest.reverse.span (fun c => !(c == '.')) with
  | (_, []) => []
  | (tail, _ :: _) => '.' :: tail.reverse

/-- Python `os.path.splitext(p)[1]`: the extension starts at the last dot of the
basename, where the basename's leading dots never start an extension
(`splitext(".bashrc") = (".bashrc", "")`). -/
def splitextExt (p : String) : String :=
  let b := basenameChars p
  let rest := b.dropWhile (fun c => c == '.')
  String.mk (extAfter rest)

/-- ASCII lowercasing of one character, as `str.lower` performs on the
repository's extension strings. -/
def lowerChar (c : Char) : Char :=
  if 65 ≤ c.toNat ∧ c.toNat ≤ 90 then Char.ofNat (c.toNat + 32) else c

/-- Python `os.path.splitext(p)[1].lower()`, as computed throughout the watcher. -/
def extLower (p : String) : String :=
  String.mk ((splitextExt p).toList.map lowerChar)

/-- Python `os.path.relpath(p, base)` for the only case the watcher meets: the file
lives under the device mount point `base`. -/
def relPath (base p : String) : String :=
  let b := base.toList ++ ['/']
  if b.isPrefixOf p.toList then String.mk (p.toList.drop b.length) else p

/-! ## Configuration (`src/utils/config.py`) -/

/-- Structure `MonitoringConfig` of `src/utils/config.py`.  `max_file_size_bytes` is
`Optional[int]`; Python truthiness makes both `None` and `0` disable the
upper bound. -/
structure MonitoringConfig where
  check_interval_seconds : Nat
  include_file_extensions : List String
  exclude_file_extensions : List String
  min_file_size_bytes : Nat
  max_file_size_bytes : Option Nat
deriving DecidableEq

/-- The `restricted_hours` dictionary `{"start": .., "end": ..}` of
`TimeBasedAlertConfig` (`end` is a Lean keyword, so the second key is named
`stop`). -/
structure RestrictedHours where
  start : String
  stop : String
deriving DecidableEq

/-- Structure `TimeBasedAlertConfig` of `src/utils/config.py`. -/
structure TimeBasedAlertConfig where
  enabled : Bool
  restricted_hours : RestrictedHours
  weekend_alerts : Bool
deriving DecidableEq

/-- Structure `AlertConfig` of `src/utils/config.py`. -/
structure AlertConfig where
  enable_alerts : Bool
  alert_threshold_mb : Nat
  suspicious_extensions : List String
  large_transfer_alert : Bool
  large_transfer_threshold_mb : Nat
  time_based_alerts : TimeBasedAlertConfig
deriving DecidableEq

/-- The fields of `datetime.now()` the watcher reads: `hour` and
`weekday()` (0 = Monday .. 6 = Sunday). -/
structure TimeInfo where
  hour : Nat
  weekday : Nat
deriving DecidableEq

/-! ## Policy evaluator (`USBFileEventHandler`, `src/core/file_watcher.py`) -/

/-- The size-constraint segment of `_should_monitor_file` (lines 56-66): a
failed size read skips both bounds (fail open); otherwise the file is
rejected when a positive minimum exceeds the size, or a truthy maximum is
exceeded. -/
def sizeCheck (mon : MonitoringConfig) (fs : FileSystem) (path : String) : Bool :=
  match fsGetsize fs path with
  | none => true
  | some sz =>
    if mon.min_file_size_bytes > 0 && sz < mon.min_file_size_bytes then false
    else
      match mon.max_file_size_bytes with
      | some mx => if mx ≠ 0 && mx < sz then false else true
      | none => true

/-- One pattern test of the include/exclude loops:
`ext.endswith(pattern) or fnmatch.fnmatch(ext, pattern)`.  `fnmatch` is
modelled for the glob constructs `*` and `?` (character classes are not used
by this repository's configuration surface). -/
def globMatch : List Char → List Char → Bool
  | [], s => s.isEmpty
  | '*' :: ps, s =>
      globMatch ps s ||
        (match s with
         | [] => false
         | _ :: cs => globMatch ('*' :: ps) cs)
  | '?' :: ps, _ :: cs => globMatch ps cs
  | p :: ps, c :: cs => (p == c) && globMatch ps cs
  | _ :: _, [] => false
termination_by pat s => (pat.length, s.length)

/-- Python `ext.endswith(pattern) or fnmatch.fnmatch(ext, pattern)`. -/
def patternMatches (ext pat : String) : Bool :=
  pat.toList.isSuffixOf ext.toList || globMatch pat.toList ext.toList

/-- The extension-policy segment of `_should_monitor_file` (lines 68-94): a
sole `"*"` include pattern admits every extension outside the exclude list;
otherwise the extension must match some include pattern and no exclude
pattern. -/
def extensionCheck (mon : MonitoringConfig) (path : String) : Bool :=
  let ext := extLower path
  let inc := mon.include_file_extensions
  let exc := mon.exclude_file_extensions
  if inc.length = 1 && inc.headD "" = "*" then
    decide (ext ∉ exc)
  else
    let included := inc.any (fun pat => patternMatches ext pat)
    if !included then false
    else !(exc.any (fun pat => patternMatches ext pat))

/-- Method `_should_monitor_file` (lines 51-94): regular file, size bounds, then
extension policy. -/
def shouldMonitorFile (mon : MonitoringConfig) (fs : FileSystem) (path : String) : Bool :=
  fsIsFile fs path && sizeCheck mon fs path && extensionCheck mon path

/-- Method `_is_suspicious_file` (lines 96-114): extension in the suspicious set and
size above the alert threshold; a failed size read is treated as suspicious
(fail closed). -/
def isSuspiciousFile (alerts : AlertConfig) (fs : FileSystem) (path : String) : Bool :=
  let ext := extLower path
  if ext ∈ alerts.suspicious_extensions then
    match fsGetsize fs path with
    | some sz => decide (alerts.alert_threshold_mb * 1048576 < sz)
    | none => true
  else false

/-- Python `int(s.split(":")[0])` applied to an `"HH:MM"` string: the digits before
the first colon read as a decimal number (total model: the repository's
configuration surface only produces parseable strings). -/
def parseHour (s : String) : Nat :=
  (s.toList.takeWhile (fun c => !(c == ':'))).foldl
    (fun acc c => acc * 10 + (c.toNat - 48)) 0

/-- Method `_check_time_based_alerts` (lines 116-139): disabled means no alert; an
enabled weekend rule fires on Saturday/Sunday; otherwise the current hour is
tested against the restricted window, which wraps past midnight when the
start hour exceeds the end hour. -/
def checkTimeBasedAlerts (alerts : AlertConfig) (now : TimeInfo) : Bool :=
  if !alerts.time_based_alerts.enabled then false
  else
    let isWeekend := decide (now.weekday ≥ 5)
    if isWeekend && alerts.time_based_alerts.weekend_alerts then true
    else
      let startHour := parseHour alerts.time_based_alerts.restricted_hours.start
      let endHour := parseHour alerts.time_based_alerts.restricted_hours.stop
      if startHour > endHour then
        decide (now.hour ≥ startHour) || decide (now.hour < endHour)
      else
        decide (now.hour ≥ startHour) && decide (now.hour < endHour)

/-! ## Event reconciler (`USBFileEventHandler`, `src/core/file_watcher.py`) -/

/-- One finalized transfer record, as assembled by `_log_file_operation` and
handed to `log_file_transfer` (the timestamp column is added by the sink's
formatter and is not computed here). -/
structure TransferRecord where
  operation : String
  device : String
  file_path : String
  file_size : Nat
  file_type : String
  user : String
deriving DecidableEq

/-- The in-flight operation table `self._in_progress`: path to
`(operation, start_time)`.  Python dict semantics are modelled by an
association list updated in place. -/
abbrev InFlight : Type := List (String × String × Nat)

/-- Method `_record_operation` (lines 188-191): upsert the path's entry with the new
kind and a fresh timestamp. -/
def recordOperation (st : InFlight) (operation path : String) (now : Nat) : InFlight :=
  if st.any (fun e => decide (e.1 = path)) then
    st.map (fun e => if e.1 = path then (path, operation, now) else e)
  else st ++ [(path, operation, now)]

/-- Method `_log_file_operation` (lines 141-186) restricted to its record output: the
record is written only when `final` is set; the size is `0` for a vanished
path; a size read that raises inside the `try` aborts the record.  The
warning side channels (large transfer, suspicious, after-hours) do not affect
the record and are not modelled here. -/
def logFileOperation (fs : FileSystem) (mount dev user : String)
    (operation path : String) (final : Bool) : Option TransferRecord :=
  let fsize := if fsExists fs path then fsGetsize fs path else some 0
  match fsize with
  | none => none
  | some sz =>
      if final then
        some ⟨operation, dev, relPath mount path, sz, extLower path, user⟩
      else none

/-- One pass of the finalizer loop body of `_finalize_operations`
(lines 193-215) at time `t`: entries older than the completion threshold are
removed from the table, and each removed entry whose path still exists — or
whose kind is `"deleted"` — is written as a final record. -/
def finalizeSweep (fs : FileSystem) (mount dev user : String)
    (st : InFlight) (t thr : Nat) : InFlight × List TransferRecord :=
  let st' := st.filter (fun e => !decide (e.2.2 + thr < t))
  let toFin := st.filter (fun e => decide (e.2.2 + thr < t))
  (st', toFin.filterMap (fun e =>
    if fsExists fs e.1 || e.2.1 = "deleted" then
      logFileOperation fs mount dev user e.2.1 e.1 true
    else none))

/-- Handler `on_created` (lines 217-221), restricted to its table effect. -/
def onCreated (mon : MonitoringConfig) (fs : FileSystem) (isDir : Bool)
    (st : InFlight) (path : String) (now : Nat) : InFlight :=
  if !isDir && shouldMonitorFile mon fs path then
    recordOperation st "created" path now
  else st

/-- Handler `on_modified` (lines 230-234), restricted to its table effect. -/
def onModified (mon : MonitoringConfig) (fs : FileSystem) (isDir : Bool)
    (st : InFlight) (path : String) (now : Nat) : InFlight :=
  if !isDir && shouldMonitorFile mon fs path then
    recordOperation st "modified" path now
  else st

/-- Handler `on_deleted` (lines 223-228): a non-directory delete is recorded without
any eligibility check. -/
def onDeleted (isDir : Bool) (st : InFlight) (path : String) (now : Nat) : InFlight :=
  if isDir then st else recordOperation st "deleted" path now

/-- Handler `on_moved` (lines 236-245): the destination, when the event carries one,
is checked first; the `elif` falls through to the source path whenever the
destination branch did not fire. -/
def onMoved (mon : MonitoringConfig) (fs : FileSystem) (isDir : Bool)
    (st : InFlight) (src : String) (dest : Option String) (now : Nat) : InFlight :=
  if isDir then st
  else
    match dest with
    | some d =>
        if shouldMonitorFile mon fs d then recordOperation st "moved" d now
        else if shouldMonitorFile mon fs src then recordOperation st "moved" src now
        else st
    | none =>
        if shouldMonitorFile mon fs src then recordOperation st "moved" src now
        else st

/-! ## Single-path timelines

To state the debounce property the raw event stream for one path is modelled
as a list of steps — ingested notifications and finalizer ticks — each
carrying its wall-clock time. -/

/-- One step of a reconciler timeline for a fixed path: a raw filesystem
notification of the given kind, or one tick of the finalizer sweep. -/
inductive Step where
  | ev (kind : String) (t : Nat)
  | sweep (t : Nat)
deriving DecidableEq

/-- Dispatch of an ingested notification kind to its `on_*` handler (the
timeline model covers non-directory events on the fixed path). -/
def ingestStep (mon : MonitoringConfig) (fs : FileSystem)
    (st : InFlight) (kind path : String) (now : Nat) : InFlight :=
  if kind = "created" then onCreated mon fs false st path now
  else if kind = "modified" then onModified mon fs false st path now
  else if kind = "deleted" then onDeleted false st path now
  else st

/-- Run a timeline: ingestions update the in-flight table, sweeps finalize;
the finalized records are collected in emission order. -/
def runSteps (mon : MonitoringConfig) (fs : FileSystem) (mount dev user path : String)
    (thr : Nat) : InFlight → List Step → InFlight × List TransferRecord
  | st, [] => (st, [])
  | st, Step.ev k t :: r =>
      runSteps mon fs mount dev user path thr (ingestStep mon fs st k path t) r
  | st, Step.sweep t :: r =>
      let fr := finalizeSweep fs mount dev user st t thr
      let r2 := runSteps mon fs mount dev user path thr fr.1 r
      (r2.1, fr.2 ++ r2.2)

/-- The kinds of the notification steps of a timeline, in order. -/
def eventKinds : List Step → List String
  | [] => []
  | Step.ev k _ :: r => k :: eventKinds r
  | Step.sweep _ :: r => eventKinds r

/-- Whether a timeline still contains a notification step. -/
def hasEvent : List Step → Bool
  | [] => false
  | Step.ev _ _ :: _ => true
  | Step.sweep _ :: r => hasEvent r

/-- Well-formedness of a timeline relative to the last event time `lastEvT`
and the last step time `lastT`: times are nondecreasing, each notification
arrives within the completion threshold of the previous one, and a sweep
that still precedes a notification also lies within the threshold (so it
cannot finalize the pending entry). -/
def timelineOk (thr : Nat) : Nat → Nat → List Step → Bool
  | _, _, [] => true
  | lastEvT, lastT, Step.ev _ t :: r =>
      decide (lastT ≤ t) && decide (t ≤ lastEvT + thr) && timelineOk thr t t r
  | lastEvT, lastT, Step.sweep t :: r =>
      decide (lastT ≤ t) && (!hasEvent r || decide (t ≤ lastEvT + thr)) &&
        timelineOk thr lastEvT t r

/-- Whether some sweep of the timeline occurs strictly later than the
completion threshold after the last notification that precedes it. -/
def hasFinalizer (thr : Nat) : Nat → List Step → Bool
  | _, [] => false
  | _, Step.ev _ t :: r => hasFinalizer thr t r
  | lastEvT, Step.sweep t :: r =>
      decide (lastEvT + thr < t) || hasFinalizer thr lastEvT r

/-- Kind and time of the last notification of a timeline, defaulting to the
given pending entry. -/
def lastEv (k : String) (t : Nat) : List Step → String × Nat
  | [] => (k, t)
  | Step.ev k' t' :: r => lastEv k' t' r
  | Step.sweep _ :: r => lastEv k t r

/-! ## Device registry reconciliation (`src/core/usb_monitor.py`) -/

/-- The identity of a `USBDevice` as the registry uses it: equality and
keying are by `device_id`; the remaining display fields ride along. -/
structure USBDevice where
  device_id : String
  name : String
  mount_point : String
deriving DecidableEq

/-- The new-device phase of the fallback poll loop (lines 366-371): each
detected device absent from the connected map is inserted and reported, in
detection order. -/
def addNewDevices (conn : List (String × USBDevice)) :
    List USBDevice → List (String × USBDevice) × List USBDevice
  | [] => (conn, [])
  | d :: ds =>
      if conn.any (fun p => decide (p.1 = d.device_id)) then addNewDevices conn ds
      else
        let r := addNewDevices (conn ++ [(d.device_id, d)]) ds
        (r.1, d :: r.2)

/-- One cycle of `_monitor_fallback` (lines 349-377): drop and report every
connected device whose id is no longer detected, then insert and report every
detected device not yet connected.  Returns the new connected map, the
removed devices and the added devices. -/
def refreshCycle (conn : List (String × USBDevice)) (cur : List USBDevice) :
    List (String × USBDevice) × List USBDevice × List USBDevice :=
  let curIds := cur.map (fun d => d.device_id)
  let removed := (conn.filter (fun p => !decide (p.1 ∈ curIds))).map (fun p => p.2)
  let conn1 := conn.filter (fun p => decide (p.1 ∈ curIds))
  let r := addNewDevices conn1 cur
  (r.1, removed, r.2)

/-! ## Tamper-evident log sink (`src/utils/logger.py`)

The log file is a list of record lines; the companion `.hash` artifact holds
the last persisted digest.  The digest primitive (`hashlib.sha256` in the
source) is a parameter `h`; the integrity claims hold up to collision
freeness of SHA-256, stated as injectivity of `h`. -/

/-- A log file (its record lines) together with its companion hash artifact
(`none` = the `.hash` file has not been written yet). -/
structure LogFileState (D : Type) where
  content : List String
  hashFile : Option D
deriving DecidableEq

/-- Method `_save_hash`: recompute the digest of the current file content and
persist it to the companion artifact. -/
def saveHash {D : Type} (h : List String → D) (st : LogFileState D) : LogFileState D :=
  { st with hashFile := some (h st.content) }

/-- Method `SecureFileHandler.emit` (lines 51-54): append the record line, then
recompute and persist the digest. -/
def emit {D : Type} (h : List String → D) (st : LogFileState D) (line : String) :
    LogFileState D :=
  saveHash h { st with content := st.content ++ [line] }

/-- Function `verify_log_integrity` (lines 156-176): missing hash artifact fails;
otherwise the persisted digest is compared against the recomputed digest of
the current content. -/
def verifyLogIntegrity {D : Type} [DecidableEq D] (h : List String → D)
    (file : List String) (hashFile : Option D) : Bool × String :=
  match hashFile with
  | none => (false, "Hash file missing")
  | some saved =>
      if saved = h file then (true, "Log file integrity verified")
      else (false, "Hash mismatch, log file may have been tampered with")

/-! ## Claims about the policy evaluator -/

/-- C4: with a restricted window `start = "18:00"`, `end = "07:00"`,
time-based alerts enabled and a weekday that does not trigger the weekend
rule, the restricted-time check is true at hour 20, true at hour 3 and false
at hour 12; in general, a start hour greater than the end hour denotes a
window wrapping past midnight (`hour ≥ start ∨ hour < end`), and otherwise
the half-open window `[start, end)`. -/
theorem checkTime_overnight_window (a : AlertConfig) (d : Nat)
    (hd : d < 5)
    (hen : a.time_based_alerts.enabled = true)
    (hs : a.time_based_alerts.restricted_hours.start = "18:00")
    (he : a.time_based_alerts.restricted_hours.stop = "07:00") :
    checkTimeBasedAlerts a ⟨20, d⟩ = true ∧
    checkTimeBasedAlerts a ⟨3, d⟩ = true ∧
    checkTimeBasedAlerts a ⟨12, d⟩ = false ∧
    (∀ (a' : AlertConfig) (now : TimeInfo),
      a'.time_based_alerts.enabled = true →
      ¬(now.weekday ≥ 5 ∧ a'.time_based_alerts.weekend_alerts = true) →
      (checkTimeBasedAlerts a' now = true ↔
        (if parseHour a'.time_based_alerts.restricted_hours.start >
            parseHour a'.time_based_alerts.restricted_hours.stop then
          now.hour ≥ parseHour a'.time_based_alerts.restricted_hours.start ∨
            now.hour < parseHour a'.time_based_alerts.restricted_hours.stop
        else
          parseHour a'.time_based_alerts.restricted_hours.start ≤ now.hour ∧
            now.hour < parseHour a'.time_based_alerts.restricted_hours.stop))) := by
  have hw : decide (5 ≤ d) = false := by simp; omega
  have h18 : parseHour "18:00" = 18 := by decide
  have h07 : parseHour "07:00" = 7 := by decide
  refine ⟨?_, ?_, ?_, ?_⟩
  · simp [checkTimeBasedAlerts, hen, hs, he, hw, h18, h07]
  · simp [checkTimeBasedAlerts, hen, hs, he, hw, h18, h07]
  · simp [checkTimeBasedAlerts, hen, hs, he, hw, h18, h07]
  · intro a' now hen' hnw
    have hw' : (decide (5 ≤ now.weekday) && a'.time_based_alerts.weekend_alerts) = false := by
      rcases Bool.eq_false_or_eq_true a'.time_based_alerts.weekend_alerts with h | h
      · simp only [h, Bool.and_true, decide_eq_false_iff_not]
        exact fun h5 => hnw ⟨h5, h⟩
      · simp [h]
    by_cases hse : parseHour a'.time_based_alerts.restricted_hours.start >
        parseHour a'.time_based_alerts.restricted_hours.stop
    · simp [checkTimeBasedAlerts, hen', hw', hse]
    · simp [checkTimeBasedAlerts, hen', hw', hse]

/-- C4 witness: the theorem instantiated at a concrete enabled configuration
and the weekday Wednesday. -/
theorem checkTime_overnight_window_witness :
    (2 < 5) ∧
    (checkTimeBasedAlerts ⟨true, 100, [".zip"], true, 500,
        ⟨true, ⟨"18:00", "07:00"⟩, true⟩⟩ ⟨20, 2⟩ = true ∧
     checkTimeBasedAlerts ⟨true, 100, [".zip"], true, 500,
        ⟨true, ⟨"18:00", "07:00"⟩, true⟩⟩ ⟨3, 2⟩ = true ∧
     checkTimeBasedAlerts ⟨true, 100, [".zip"], true, 500,
        ⟨true, ⟨"18:00", "07:00"⟩, true⟩⟩ ⟨12, 2⟩ = false) := by
  have h := checkTime_overnight_window
    ⟨true, 100, [".zip"], true, 500, ⟨true, ⟨"18:00", "07:00"⟩, true⟩⟩ 2
    (by decide) rfl rfl rfl
  exact ⟨by decide, h.1, h.2.1, h.2.2.1⟩

/-- C5: for a file whose extension is in the suspicious set, the suspicious
classification is true exactly when the size exceeds the alert threshold (in
bytes, `threshold_mb * 2^20`), and true when the size cannot be read (fails
closed) — whereas the eligibility size check passes whenever the size cannot
be read (fails open). -/
theorem suspicious_fails_closed (a : AlertConfig) (mon : MonitoringConfig) (path : String)
    (hext : extLower path ∈ a.suspicious_extensions) :
    (∀ (fs : FileSystem) (sz : Nat), fsGetsize fs path = some sz →
        (isSuspiciousFile a fs path = true ↔ a.alert_threshold_mb * 1048576 < sz)) ∧
    (∀ fs : FileSystem, fsGetsize fs path = none →
        isSuspiciousFile a fs path = true ∧ sizeCheck mon fs path = true) := by
  constructor
  · intro fs sz hsz
    simp [isSuspiciousFile, hext, hsz]
  · intro fs hnone
    simp [isSuspiciousFile, sizeCheck, hext, hnone]

/-- C5 witness: a 2 MiB + 1 byte `.zip` against a 1 MB threshold is
suspicious; the same path on a snapshot where the size read raises is
suspicious yet passes the eligibility size check. -/
theorem suspicious_fails_closed_witness :
    (extLower "/m/x.zip" ∈ ([".zip"] : List String)) ∧
    (isSuspiciousFile ⟨true, 1, [".zip"], true, 500, ⟨true, ⟨"18:00", "07:00"⟩, true⟩⟩
        (fun p => if p = "/m/x.zip" then some ⟨true, some 2097153⟩ else none) "/m/x.zip" = true) ∧
    (isSuspiciousFile ⟨true, 1, [".zip"], true, 500, ⟨true, ⟨"18:00", "07:00"⟩, true⟩⟩
        (fun p => if p = "/m/x.zip" then some ⟨true, none⟩ else none) "/m/x.zip" = true ∧
     sizeCheck ⟨1, ["*"], [], 0, none⟩
        (fun p => if p = "/m/x.zip" then some ⟨true, none⟩ else none) "/m/x.zip" = true) := by
  have h := suspicious_fails_closed
    ⟨true, 1, [".zip"], true, 500, ⟨true, ⟨"18:00", "07:00"⟩, true⟩⟩
    ⟨1, ["*"], [], 0, none⟩ "/m/x.zip" (by decide)
  refine ⟨by decide, ?_, ?_⟩
  · exact (h.1 (fun p => if p = "/m/x.zip" then some ⟨true, some 2097153⟩ else none)
      2097153 rfl).mpr (by decide)
  · exact h.2 (fun p => if p = "/m/x.zip" then some ⟨true, none⟩ else none) rfl

/-- C8: with include patterns `["*"]` and exclude patterns `[".tmp"]`, a file
with lowercase extension `.tmp` is never eligible and a `.txt` file is
eligible whenever it is a regular file within the size bounds; in general a
sole `"*"` include pattern admits exactly the extensions outside the exclude
list. -/
theorem wildcard_include_policy (mon : MonitoringConfig) (fs : FileSystem) (path : String)
    (hinc : mon.include_file_extensions = ["*"])
    (hexc : mon.exclude_file_extensions = [".tmp"]) :
    (extLower path = ".tmp" → shouldMonitorFile mon fs path = false) ∧
    (extLower path = ".txt" → fsIsFile fs path = true → sizeCheck mon fs path = true →
        shouldMonitorFile mon fs path = true) ∧
    (∀ (mon' : MonitoringConfig) (path' : String),
      mon'.include_file_extensions = ["*"] →
      (shouldMonitorFile mon' fs path' = true ↔
        (fsIsFile fs path' = true ∧ sizeCheck mon' fs path' = true ∧
          extLower path' ∉ mon'.exclude_file_extensions))) := by
  refine ⟨?_, ?_, ?_⟩
  · intro htmp
    simp [shouldMonitorFile, extensionCheck, hinc, hexc, htmp]
  · intro htxt hfile hsize
    simp [shouldMonitorFile, extensionCheck, hinc, hexc, htxt, hfile, hsize]
  · intro mon' path' hinc'
    simp [shouldMonitorFile, extensionCheck, hinc', and_assoc]

/-- C8 witness: the theorem instantiated at the wildcard configuration, on a
concrete existing `.tmp` file and a concrete existing `.txt` file. -/
theorem wildcard_include_policy_witness :
    (shouldMonitorFile ⟨1, ["*"], [".tmp"], 0, none⟩
      (fun p => if p = "/m/a.tmp" then some ⟨true, some 5⟩ else none) "/m/a.tmp" = false) ∧
    (shouldMonitorFile ⟨1, ["*"], [".tmp"], 0, none⟩
      (fun p => if p = "/m/b.txt" then some ⟨true, some 5⟩ else none) "/m/b.txt" = true) := by
  constructor
  · exact (wildcard_include_policy ⟨1, ["*"], [".tmp"], 0, none⟩
      (fun p => if p = "/m/a.tmp" then some ⟨true, some 5⟩ else none) "/m/a.tmp"
      rfl rfl).1 (by decide)
  · exact (wildcard_include_policy ⟨1, ["*"], [".tmp"], 0, none⟩
      (fun p => if p = "/m/b.txt" then some ⟨true, some 5⟩ else none) "/m/b.txt"
      rfl rfl).2.1 (by decide) (by decide) (by decide)

/-- C9: with `min_file_size_bytes = 1000` and no maximum, a 500-byte file is
not eligible and a 1000-byte regular file is eligible (the lower bound is
inclusive), given the extension policy passes. -/
theorem min_size_bound_inclusive (mon : MonitoringConfig) (fs : FileSystem) (path : String)
    (hmin : mon.min_file_size_bytes = 1000)
    (hmax : mon.max_file_size_bytes = none) :
    (fsGetsize fs path = some 500 → shouldMonitorFile mon fs path = false) ∧
    (fsIsFile fs path = true → fsGetsize fs path = some 1000 →
      extensionCheck mon path = true → shouldMonitorFile mon fs path = true) := by
  constructor
  · intro h500
    simp [shouldMonitorFile, sizeCheck, h500, hmin]
  · intro hfile h1000 hext
    simp [shouldMonitorFile, sizeCheck, h1000, hmin, hmax, hfile, hext]

/-- C9 witness: concrete 500-byte and 1000-byte regular files under the
`min = 1000`, `max = None` configuration. -/
theorem min_size_bound_inclusive_witness :
    (shouldMonitorFile ⟨1, ["*"], [], 1000, none⟩
      (fun p => if p = "/m/a.txt" then some ⟨true, some 500⟩ else none) "/m/a.txt" = false) ∧
    (shouldMonitorFile ⟨1, ["*"], [], 1000, none⟩
      (fun p => if p = "/m/a.txt" then some ⟨true, some 1000⟩ else none) "/m/a.txt" = true) := by
  constructor
  · exact (min_size_bound_inclusive ⟨1, ["*"], [], 1000, none⟩
      (fun p => if p = "/m/a.txt" then some ⟨true, some 500⟩ else none) "/m/a.txt"
      rfl rfl).1 rfl
  · exact (min_size_bound_inclusive ⟨1, ["*"], [], 1000, none⟩
      (fun p => if p = "/m/a.txt" then some ⟨true, some 1000⟩ else none) "/m/a.txt"
      rfl rfl).2 rfl rfl (by decide)

/-- C10: a final record for a path that no longer exists at finalization time
carries `file_size = 0`; the last known size is not preserved. -/
theorem vanished_path_record_size_zero (fs : FileSystem) (mount dev user op path : String)
    (hgone : fsExists fs path = false) :
    logFileOperation fs mount dev user op path true =
      some ⟨op, dev, relPath mount path, 0, extLower path, user⟩ := by
  simp [logFileOperation, hgone]

/-- C10 witness: a finalized delete of a vanished path yields a record of
size 0. -/
theorem vanished_path_record_size_zero_witness :
    logFileOperation (fun _ => none) "/m" "D" "u" "deleted" "/m/a.txt" true =
      some ⟨"deleted", "D", "a.txt", 0, ".txt", "u"⟩ := by
  have h := vanished_path_record_size_zero (fun _ => none) "/m" "D" "u" "deleted"
    "/m/a.txt" rfl
  rw [h]
  decide

/-! ## Claims about the reconciler's delete and move handling -/

/-- C2: a non-directory delete is recorded without consulting the
eligibility policy (the ingestion is `recordOperation` unconditionally, for
every configuration and filesystem), and the finalizer writes the final
record for a delete although the path no longer exists. -/
theorem delete_bypasses_eligibility (mon : MonitoringConfig) (fs : FileSystem)
    (mount dev user path : String) (st : InFlight) (t T thr : Nat)
    (hT : t + thr < T) (hgone : fsExists fs path = false) :
    ingestStep mon fs st "deleted" path t = recordOperation st "deleted" path t ∧
    runSteps mon fs mount dev user path thr [] [Step.ev "deleted" t, Step.sweep T] =
      ([], [⟨"deleted", dev, relPath mount path, 0, extLower path, user⟩]) := by
  constructor
  · rfl
  · simp [runSteps, ingestStep, onDeleted, recordOperation, finalizeSweep,
      logFileOperation, hgone, hT]

/-- C2 witness: a delete of a path absent from the snapshot, on a
configuration whose size bounds and patterns would never admit it, is still
finalized. -/
theorem delete_bypasses_eligibility_witness :
    runSteps ⟨1, ["*"], [], 0, none⟩ (fun _ => none) "/m" "D" "u" "/m/x.bin" 1 []
      [Step.ev "deleted" 0, Step.sweep 2] =
      ([], [⟨"deleted", "D", "x.bin", 0, ".bin", "u"⟩]) := by
  have h := (delete_bypasses_eligibility ⟨1, ["*"], [], 0, none⟩ (fun _ => none)
    "/m" "D" "u" "/m/x.bin" [] 0 2 1 (by decide) rfl).2
  rw [h]
  decide

/-- C3 counterexample: a move event that carries a destination, with an
ineligible destination and an eligible source, records the *source* path —
so the source is used even though a destination is present, contradicting
"the source path is used only when no destination is present". -/
theorem moved_dest_only_counterexample :
    (some "/m/d.txt" ≠ (none : Option String)) ∧
    onMoved ⟨1, ["*"], [], 0, none⟩
      (fun p => if p = "/m/s.txt" then some ⟨true, some 5⟩ else none)
      false [] "/m/s.txt" (some "/m/d.txt") 0 = [("/m/s.txt", "moved", 0)] := by
  decide

/-- C3 amended: the destination, when present, is evaluated first and, when
eligible, is the recorded path; the source path is used as a fallback
whenever the destination is absent *or ineligible* (not only when absent). -/
theorem moved_source_fallback (mon : MonitoringConfig) (fs : FileSystem)
    (st : InFlight) (src d : String) (now : Nat)
    (hd : shouldMonitorFile mon fs d = false)
    (hs : shouldMonitorFile mon fs src = true) :
    onMoved mon fs false st src (some d) now = recordOperation st "moved" src now ∧
    (∀ d' : String, shouldMonitorFile mon fs d' = true →
      onMoved mon fs false st src (some d') now = recordOperation st "moved" d' now) ∧
    onMoved mon fs false st src none now = recordOperation st "moved" src now := by
  refine ⟨?_, ?_, ?_⟩
  · simp [onMoved, hd, hs]
  · intro d' hd'
    simp [onMoved, hd']
  · simp [onMoved, hs]

/-- C3 witness: the ineligible-destination fallback exercised on a concrete
event. -/
theorem moved_source_fallback_witness :
    onMoved ⟨1, ["*"], [], 0, none⟩
      (fun p => if p = "/m/s.txt" then some ⟨true, some 5⟩ else none)
      false [("/m/s.txt", "created", 0)] "/m/s.txt" (some "/m/d.txt") 1 =
      [("/m/s.txt", "moved", 1)] := by
  have h := (moved_source_fallback ⟨1, ["*"], [], 0, none⟩
    (fun p => if p = "/m/s.txt" then some ⟨true, some 5⟩ else none)
    [("/m/s.txt", "created", 0)] "/m/s.txt" "/m/d.txt" 1 (by decide) (by decide)).1
  rw [h]
  decide

/-! ## Claims about the tamper-evident log sink -/

/-- Every append leaves the persisted digest equal to the digest of the
resulting content; `emit` establishes the invariant and the fold preserves
it. -/
theorem foldl_emit_hashFile {D : Type} (h : List String → D) :
    ∀ (ls : List String) (st : LogFileState D),
      st.hashFile = some (h st.content) →
      (ls.foldl (emit h) st).hashFile = some (h (ls.foldl (emit h) st).content)
  | [], _, hst => hst
  | _ :: ls, st, _ => foldl_emit_hashFile h ls (emit h st _) rfl

/-- C7: after appending at least one record (each append re-persisting the
digest), verification succeeds, and — for an injective digest function, the
collision-freeness assumption on SHA-256 — verification against the
persisted digest succeeds exactly for the unmodified content: any
out-of-band modification (e.g. a truncation) is reported as a mismatch. -/
theorem log_integrity_iff (D : Type) [DecidableEq D] (h : List String → D)
    (hinj : Function.Injective h) (st0 : LogFileState D) (l : String) (ls : List String) :
    (verifyLogIntegrity h ((l :: ls).foldl (emit h) st0).content
        ((l :: ls).foldl (emit h) st0).hashFile).1 = true ∧
    (∀ c' : List String,
      (verifyLogIntegrity h c' ((l :: ls).foldl (emit h) st0).hashFile).1 = true ↔
        c' = ((l :: ls).foldl (emit h) st0).content) := by
  have key : ((l :: ls).foldl (emit h) st0).hashFile =
      some (h ((l :: ls).foldl (emit h) st0).content) := by
    have hstep : (l :: ls).foldl (emit h) st0 = ls.foldl (emit h) (emit h st0 l) := rfl
    rw [hstep]
    exact foldl_emit_hashFile h ls (emit h st0 l) rfl
  constructor
  · rw [key]
    simp [verifyLogIntegrity]
  · intro c'
    rw [key]
    constructor
    · intro hv
      by_contra hne
      have hne' : ¬(h ((l :: ls).foldl (emit h) st0).content = h c') :=
        fun e => hne (hinj e).symm
      simp only [List.foldl_cons] at hne'
      simp [verifyLogIntegrity, hne'] at hv
    · intro hc
      subst hc
      simp [verifyLogIntegrity]

/-- C7 witness: with the digest abstracted as the identity, one append
verifies, and verification of an out-of-band truncation (the content with
the appended record removed) fails. -/
theorem log_integrity_iff_witness :
    (verifyLogIntegrity (D := List String) id
        ((["r1"]).foldl (emit id) ⟨[], none⟩).content
        ((["r1"]).foldl (emit id) ⟨[], none⟩).hashFile).1 = true ∧
    (verifyLogIntegrity (D := List String) id []
        ((["r1"]).foldl (emit id) ⟨[], none⟩).hashFile).1 = false := by
  have h := log_integrity_iff (List String) id (fun _ _ hab => hab) ⟨[], none⟩ "r1" []
  refine ⟨h.1, ?_⟩
  have h2 := h.2 []
  revert h2
  decide

/-! ## Claims about the device registry -/

/-- Keys already connected survive the new-device phase. -/
theorem addNewDevices_keeps_keys (x : String) :
    ∀ (ds : List USBDevice) (conn : List (String × USBDevice)),
      x ∈ conn.map Prod.fst → x ∈ (addNewDevices conn ds).1.map Prod.fst := by
  intro ds
  induction ds with
  | nil => intro conn hx; exact hx
  | cons d ds ih =>
      intro conn hx
      unfold addNewDevices
      by_cases hc : conn.any (fun p => decide (p.1 = d.device_id)) = true
      · simp only [hc, if_true]
        exact ih conn hx
      · simp only [hc, if_false]
        exact ih (conn ++ [(d.device_id, d)]) (by simp [hx])

/-- Every detected device's id is a key of the map the new-device phase
produces. -/
theorem addNewDevices_detected_mem :
    ∀ (ds : List USBDevice) (conn : List (String × USBDevice)) (d : USBDevice),
      d ∈ ds → d.device_id ∈ (addNewDevices conn ds).1.map Prod.fst := by
  intro ds
  induction ds with
  | nil => intro conn d hd; cases hd
  | cons d' ds ih =>
      intro conn d hd
      unfold addNewDevices
      rcases List.mem_cons.mp hd with rfl | hd'
      · by_cases hc : conn.any (fun p => decide (p.1 = d.device_id)) = true
        · simp only [hc, if_true]
          rcases List.any_eq_true.mp hc with ⟨p, hp, hpd⟩
          exact addNewDevices_keeps_keys _ ds conn
            (List.mem_map.mpr ⟨p, hp, of_decide_eq_true hpd⟩)
        · simp only [hc, if_false]
          exact addNewDevices_keeps_keys _ ds (conn ++ [(d.device_id, d)]) (by simp)
      · by_cases hc : conn.any (fun p => decide (p.1 = d'.device_id)) = true
        · simp only [hc, if_true]
          exact ih conn d hd'
        · simp only [hc, if_false]
          exact ih (conn ++ [(d'.device_id, d')]) d hd'

/-- When every detected device's id is already a key, the new-device phase
changes nothing and reports no additions. -/
theorem addNewDevices_all_present :
    ∀ (ds : List USBDevice) (conn : List (String × USBDevice)),
      (∀ d ∈ ds, conn.any (fun p => decide (p.1 = d.device_id)) = true) →
      addNewDevices conn ds = (conn, []) := by
  intro ds
  induction ds with
  | nil => intro conn _; rfl
  | cons d ds ih =>
      intro conn hall
      unfold addNewDevices
      have hc := hall d (List.mem_cons_self d ds)
      simp only [hc, if_true]
      exact ih conn (fun d' hd' => hall d' (List.mem_cons_of_mem d hd'))

/-- Every entry of the map the new-device phase produces was connected
before or carries a detected id. -/
theorem addNewDevices_entry_src :
    ∀ (ds : List USBDevice) (conn : List (String × USBDevice)) (q : String × USBDevice),
      q ∈ (addNewDevices conn ds).1 →
      q ∈ conn ∨ q.1 ∈ ds.map (fun d => d.device_id) := by
  intro ds
  induction ds with
  | nil => intro conn q hq; exact Or.inl hq
  | cons d ds ih =>
      intro conn q hq
      unfold addNewDevices at hq
      by_cases hc : conn.any (fun p => decide (p.1 = d.device_id)) = true
      · simp only [hc, if_true] at hq
        rcases ih conn q hq with h | h
        · exact Or.inl h
        · exact Or.inr (by simp [h])
      · simp only [hc, if_false] at hq
        rcases ih (conn ++ [(d.device_id, d)]) q hq with h | h
        · rcases List.mem_append.mp h with h' | h'
          · exact Or.inl h'
          · simp at h'
            exact Or.inr (by simp [h'])
        · exact Or.inr (by simp [h])

/-- The new-device phase never reports a device whose id is already a key of
the starting map. -/
theorem addNewDevices_added_fresh (x : String) :
    ∀ (ds : List USBDevice) (conn : List (String × USBDevice)),
      x ∈ conn.map Prod.fst →
      ∀ d ∈ (addNewDevices conn ds).2, d.device_id ≠ x := by
  intro ds
  induction ds with
  | nil => intro conn _ d hd; cases hd
  | cons d' ds ih =>
      intro conn hx d hd
      unfold addNewDevices at hd
      by_cases hc : conn.any (fun p => decide (p.1 = d'.device_id)) = true
      · simp only [hc, if_true] at hd
        exact ih conn hx d hd
      · simp only [hc, if_false] at hd
        rcases List.mem_cons.mp hd with rfl | hd'
        · intro he
          apply hc
          rcases List.mem_map.mp hx with ⟨p, hp, hpx⟩
          exact List.any_eq_true.mpr ⟨p, hp, decide_eq_true (by rw [hpx, he])⟩
        · exact ih (conn ++ [(d'.device_id, d')]) (by simp [hx]) d hd'

/-- C6: running the registry reconciliation twice with the same detected
device list yields empty removed and added deltas on the second run, and a
device id present both in the connected map and in the detection list is
treated as unchanged — it appears in neither delta and stays connected. -/
theorem refresh_idempotent (conn : List (String × USBDevice)) (cur : List USBDevice)
    (hkeys : ∀ p ∈ conn, p.1 = p.2.device_id) :
    ((refreshCycle (refreshCycle conn cur).1 cur).2.1 = [] ∧
     (refreshCycle (refreshCycle conn cur).1 cur).2.2 = []) ∧
    (∀ x, x ∈ conn.map Prod.fst → x ∈ cur.map (fun d => d.device_id) →
      (∀ d ∈ (refreshCycle conn cur).2.1, d.device_id ≠ x) ∧
      (∀ d ∈ (refreshCycle conn cur).2.2, d.device_id ≠ x) ∧
      x ∈ (refreshCycle conn cur).1.map Prod.fst) := by
  have hc1 : ∀ q ∈ (refreshCycle conn cur).1, q.1 ∈ cur.map (fun d => d.device_id) := by
    intro q hq
    rcases addNewDevices_entry_src cur _ q hq with h | h
    · exact of_decide_eq_true (List.mem_filter.mp h).2
    · exact h
  have hc2 : ∀ d ∈ cur, d.device_id ∈ (refreshCycle conn cur).1.map Prod.fst :=
    fun d hd => addNewDevices_detected_mem cur _ d hd
  constructor
  · constructor
    · show ((((refreshCycle conn cur).1.filter _).map _ : List USBDevice)) = []
      rw [List.map_eq_nil_iff]
      rw [List.filter_eq_nil_iff]
      intro q hq
      simp [hc1 q hq]
    · show (addNewDevices ((refreshCycle conn cur).1.filter _) cur).2 = []
      have hself : ((refreshCycle conn cur).1.filter
          (fun p => decide (p.1 ∈ cur.map (fun d => d.device_id)))) =
          (refreshCycle conn cur).1 :=
        List.filter_eq_self.mpr (fun q hq => decide_eq_true (hc1 q hq))
      rw [hself]
      rw [addNewDevices_all_present cur _ (fun d hd => ?_)]
      rcases List.mem_map.mp (hc2 d hd) with ⟨q, hq, hqd⟩
      exact List.any_eq_true.mpr ⟨q, hq, decide_eq_true hqd⟩
  · intro x hx hcur
    refine ⟨?_, ?_, ?_⟩
    · intro d hd he
      rcases List.mem_map.mp hd with ⟨p, hp, hpd⟩
      have hp' := (List.mem_filter.mp hp).2
      have hnot : ¬(p.1 ∈ cur.map (fun d => d.device_id)) := by
        simpa using hp'
      apply hnot
      rw [hkeys p (List.mem_filter.mp hp).1, hpd, he]
      exact hcur
    · intro d hd
      apply addNewDevices_added_fresh x cur _ ?_ d hd
      rcases List.mem_map.mp hx with ⟨p, hp, hpx⟩
      refine List.mem_map.mpr ⟨p, List.mem_filter.mpr ⟨hp, decide_eq_true ?_⟩, hpx⟩
      rw [hpx]
      exact hcur
    · apply addNewDevices_keeps_keys x cur
      rcases List.mem_map.mp hx with ⟨p, hp, hpx⟩
      refine List.mem_map.mpr ⟨p, List.mem_filter.mpr ⟨hp, decide_eq_true ?_⟩, hpx⟩
      rw [hpx]
      exact hcur

/-- C6 witness: one already-connected device plus one newly detected device;
the second reconciliation with the same detection list reports no deltas,
and the persisting device is in neither delta of the first. -/
theorem refresh_idempotent_witness :
    ((refreshCycle (refreshCycle [("idA", ⟨"idA", "A", "/a"⟩)]
        [⟨"idA", "A", "/a"⟩, ⟨"idB", "B", "/b"⟩]).1
        [⟨"idA", "A", "/a"⟩, ⟨"idB", "B", "/b"⟩]).2.1 = [] ∧
     (refreshCycle (refreshCycle [("idA", ⟨"idA", "A", "/a"⟩)]
        [⟨"idA", "A", "/a"⟩, ⟨"idB", "B", "/b"⟩]).1
        [⟨"idA", "A", "/a"⟩, ⟨"idB", "B", "/b"⟩]).2.2 = []) ∧
    (∀ d ∈ (refreshCycle [("idA", ⟨"idA", "A", "/a"⟩)]
        [⟨"idA", "A", "/a"⟩, ⟨"idB", "B", "/b"⟩]).2.1, d.device_id ≠ "idA") ∧
    (∀ d ∈ (refreshCycle [("idA", ⟨"idA", "A", "/a"⟩)]
        [⟨"idA", "A", "/a"⟩, ⟨"idB", "B", "/b"⟩]).2.2, d.device_id ≠ "idA") := by
  have h := refresh_idempotent [("idA", ⟨"idA", "A", "/a"⟩)]
    [⟨"idA", "A", "/a"⟩, ⟨"idB", "B", "/b"⟩] (by decide)
  have h2 := h.2 "idA" (by decide) (by decide)
  exact ⟨h.1, h2.1, h2.2.1⟩

/-! ## Claim C1: the debounce property of the reconciler -/

/-- A sweep within the completion threshold of a pending entry leaves it in
place and emits nothing. -/
theorem finalizeSweep_singleton_recent (fs : FileSystem) (mount dev user p k : String)
    (s t thr : Nat) (h : ¬(s + thr < t)) :
    finalizeSweep fs mount dev user [(p, k, s)] t thr = ([(p, k, s)], []) := by
  simp [finalizeSweep, h]

/-- A sweep on an empty table emits nothing. -/
theorem finalizeSweep_nil (fs : FileSystem) (mount dev user : String) (t thr : Nat) :
    finalizeSweep fs mount dev user [] t thr = ([], []) := rfl

/-- A sweep past the completion threshold finalizes the pending entry of an
existing, readable path into exactly one record of its current kind. -/
theorem finalizeSweep_singleton_old (fs : FileSystem) (mount dev user p k : String)
    (s t thr sz : Nat) (h : s + thr < t)
    (hex : fsExists fs p = true) (hsz : fsGetsize fs p = some sz) :
    finalizeSweep fs mount dev user [(p, k, s)] t thr =
      ([], [⟨k, dev, relPath mount p, sz, extLower p, user⟩]) := by
  simp [finalizeSweep, h, logFileOperation, hex, hsz]

/-- A timeline with no notifications, run from an empty table, emits
nothing. -/
theorem runSteps_no_events (mon : MonitoringConfig) (fs : FileSystem)
    (mount dev user path : String) (thr : Nat) :
    ∀ steps : List Step, hasEvent steps = false →
      runSteps mon fs mount dev user path thr [] steps = ([], []) := by
  intro steps
  induction steps with
  | nil => intro _; rfl
  | cons s r ih =>
      cases s with
      | ev k t => intro h; simp [hasEvent] at h
      | sweep t =>
          intro h
          have ih' := ih (by simpa [hasEvent] using h)
          simp [runSteps, finalizeSweep_nil, ih']

/-- A timeline with no notifications has no last notification. -/
theorem lastEv_no_events (k : String) (t : Nat) :
    ∀ steps : List Step, hasEvent steps = false → lastEv k t steps = (k, t) := by
  intro steps
  induction steps generalizing k t with
  | nil => intro _; rfl
  | cons s r ih =>
      cases s with
      | ev k' t' => intro h; simp [hasEvent] at h
      | sweep t' =>
          intro h
          simpa [lastEv] using ih k t (by simpa [hasEvent] using h)

/-- On an eligible path, ingesting any of the three single-path notification
kinds is exactly the table upsert. -/
theorem ingestStep_record (mon : MonitoringConfig) (fs : FileSystem) (st : InFlight)
    (path : String) (t : Nat) (k : String)
    (helig : shouldMonitorFile mon fs path = true)
    (hk : k = "created" ∨ k = "modified" ∨ k = "deleted") :
    ingestStep mon fs st k path t = recordOperation st k path t := by
  rcases hk with rfl | rfl | rfl <;>
    simp [ingestStep, onCreated, onModified, onDeleted, helig]

/-- Upserting a path into its own singleton table overwrites the entry with
the new kind and a fresh timestamp. -/
theorem recordOperation_singleton (p k' : String) (s : Nat) (k : String) (t : Nat) :
    recordOperation [(p, k', s)] k p t = [(p, k, t)] := by
  simp [recordOperation]

/-- Invariant of a pending single-path entry along a well-formed timeline:
every notification overwrites the entry, every sweep that still precedes a
notification is a no-op, and the first sweep past the threshold finalizes
the entry into exactly one record of the latest kind and clears the table;
no record or pending entry exists afterwards. -/
theorem runSteps_pending (mon : MonitoringConfig) (fs : FileSystem)
    (mount dev user path : String) (thr sz : Nat)
    (helig : shouldMonitorFile mon fs path = true)
    (hex : fsExists fs path = true)
    (hsz : fsGetsize fs path = some sz) :
    ∀ (steps : List Step) (k : String) (lastEvT lastT : Nat),
      (eventKinds steps).all
        (fun x => decide (x = "created") || decide (x = "modified") ||
          decide (x = "deleted")) = true →
      timelineOk thr lastEvT lastT steps = true →
      runSteps mon fs mount dev user path thr [(path, k, lastEvT)] steps =
        (if hasFinalizer thr lastEvT steps = true then
          ([], [⟨(lastEv k lastEvT steps).1, dev, relPath mount path, sz,
            extLower path, user⟩])
        else
          ([(path, (lastEv k lastEvT steps).1, (lastEv k lastEvT steps).2)], [])) := by
  intro steps
  induction steps with
  | nil =>
      intro k lastEvT lastT _ _
      simp [runSteps, hasFinalizer, lastEv]
  | cons s r ih =>
      cases s with
      | ev k' t =>
          intro k lastEvT lastT hall hok
          have hall' : (eventKinds r).all
              (fun x => decide (x = "created") || decide (x = "modified") ||
                decide (x = "deleted")) = true := by
            simp only [eventKinds, List.all_cons, Bool.and_eq_true] at hall
            exact hall.2
          have hk' : k' = "created" ∨ k' = "modified" ∨ k' = "deleted" := by
            simp only [eventKinds, List.all_cons, Bool.and_eq_true, Bool.or_eq_true,
              decide_eq_true_eq] at hall
            tauto
          have hok' : timelineOk thr t t r = true := by
            simp only [timelineOk, Bool.and_eq_true] at hok
            exact hok.2
          have hstep : runSteps mon fs mount dev user path thr
              [(path, k, lastEvT)] (Step.ev k' t :: r) =
              runSteps mon fs mount dev user path thr [(path, k', t)] r := by
            simp only [runSteps]
            rw [ingestStep_record mon fs _ path t k' helig hk',
              recordOperation_singleton]
          rw [hstep, ih k' t t hall' hok']
          simp only [hasFinalizer, lastEv]
      | sweep t =>
          intro k lastEvT lastT hall hok
          have hok1 : (!hasEvent r || decide (t ≤ lastEvT + thr)) = true := by
            simp only [timelineOk, Bool.and_eq_true] at hok
            exact hok.1.2
          have hok' : timelineOk thr lastEvT t r = true := by
            simp only [timelineOk, Bool.and_eq_true] at hok
            exact hok.2
          by_cases hfin : lastEvT + thr < t
          · have hne : hasEvent r = false := by
              rcases Bool.eq_false_or_eq_true (hasEvent r) with h | h
              · rw [h] at hok1
                simp only [Bool.not_true, Bool.false_or, decide_eq_true_eq] at hok1
                omega
              · exact h
            simp only [runSteps,
              finalizeSweep_singleton_old fs mount dev user path k lastEvT t thr sz
                hfin hex hsz,
              runSteps_no_events mon fs mount dev user path thr r hne]
            simp [hasFinalizer, hfin, lastEv, lastEv_no_events k lastEvT r hne]
          · simp only [runSteps,
              finalizeSweep_singleton_recent fs mount dev user path k lastEvT t thr hfin]
            rw [ih k lastEvT t hall hok']
            rcases Bool.eq_false_or_eq_true (hasFinalizer thr lastEvT r) with hf | hf <;>
              simp [hasFinalizer, hfin, hf, lastEv]

/-- The eligibility check implies the path exists. -/
theorem shouldMonitor_exists (mon : MonitoringConfig) (fs : FileSystem) (path : String)
    (h : shouldMonitorFile mon fs path = true) : fsExists fs path = true := by
  have hfile : fsIsFile fs path = true := by
    simp only [shouldMonitorFile, Bool.and_eq_true] at h
    exact h.1.1
  unfold fsIsFile at hfile
  unfold fsExists
  cases hfs : fs path with
  | none => rw [hfs] at hfile; simp at hfile
  | some e => simp [hfs]

/-- The kind of the last notification of an all-modify timeline: the default
kind when there are no modifications, `"modified"` otherwise. -/
theorem lastEv_replicate :
    ∀ (rest : List Step) (N : Nat) (k : String) (t : Nat),
      eventKinds rest = List.replicate N "modified" →
      (lastEv k t rest).1 = if N = 0 then k else "modified" := by
  intro rest
  induction rest with
  | nil =>
      intro N k t hk
      cases N with
      | zero => rfl
      | succ M => simp [eventKinds, List.replicate] at hk
  | cons s r ih =>
      cases s with
      | ev k' t' =>
          intro N k t hk
          cases N with
          | zero => simp [eventKinds, List.replicate] at hk
          | succ M =>
              simp only [eventKinds, List.replicate, List.cons.injEq] at hk
              have := ih M k' t' hk.2
              rw [show lastEv k t (Step.ev k' t' :: r) = lastEv k' t' r from rfl, this]
              cases M <;> simp [hk.1]
      | sweep t' =>
          intro N k t hk
          exact ih N k t hk

/-- C1: a create followed by N modifies of an eligible path, all within the
completion threshold, with no later notification for the path and at least
one sweep past the threshold, produces exactly one finalized record, whose
kind is the kind of the last notification; the pending entry is gone
afterwards. -/
theorem reconciler_debounce (mon : MonitoringConfig) (fs : FileSystem)
    (mount dev user path : String) (thr sz N t0 : Nat) (rest : List Step)
    (hk : eventKinds rest = List.replicate N "modified")
    (hok : timelineOk thr t0 t0 rest = true)
    (hfin : hasFinalizer thr t0 rest = true)
    (helig : shouldMonitorFile mon fs path = true)
    (hsz : fsGetsize fs path = some sz) :
    runSteps mon fs mount dev user path thr [] (Step.ev "created" t0 :: rest) =
      ([], [⟨if N = 0 then "created" else "modified", dev, relPath mount path, sz,
        extLower path, user⟩]) := by
  have hex := shouldMonitor_exists mon fs path helig
  have hall : (eventKinds rest).all
      (fun x => decide (x = "created") || decide (x = "modified") ||
        decide (x = "deleted")) = true := by
    rw [hk]
    simp only [List.all_eq_true, List.mem_replicate]
    rintro x ⟨-, rfl⟩
    simp
  have hstep : runSteps mon fs mount dev user path thr [] (Step.ev "created" t0 :: rest) =
      runSteps mon fs mount dev user path thr [(path, "created", t0)] rest := by
    simp only [runSteps]
    rw [ingestStep_record mon fs [] path t0 "created" helig (Or.inl rfl)]
    simp [recordOperation]
  rw [hstep,
    runSteps_pending mon fs mount dev user path thr sz helig hex hsz rest "created" t0 t0
      hall hok,
    if_pos hfin,
    lastEv_replicate rest N "created" t0 hk]

/-- C1 witness: create at tick 0, modify at tick 3, one sweep past the
1-second (10-tick) threshold — a single finalized record of kind
`"modified"`. -/
theorem reconciler_debounce_witness :
    runSteps ⟨1, ["*"], [], 0, none⟩
      (fun p => if p = "/mnt/a.txt" then some ⟨true, some 5⟩ else none)
      "/mnt" "D" "u" "/mnt/a.txt" 10 []
      [Step.ev "created" 0, Step.ev "modified" 3, Step.sweep 20] =
      ([], [⟨"modified", "D", "a.txt", 5, ".txt", "u"⟩]) := by
  have h := reconciler_debounce ⟨1, ["*"], [], 0, none⟩
    (fun p => if p = "/mnt/a.txt" then some ⟨true, some 5⟩ else none)
    "/mnt" "D" "u" "/mnt/a.txt" 10 5 1 0 [Step.ev "modified" 3, Step.sweep 20]
    (by decide) (by decide) (by decide) (by decide) rfl
  rw [h]
  decide
